import Mathlib

/-!
Shallow embedding of starship's prompt pipeline: the module-resolution
orchestrator (`src/print.rs`), the custom-module executor
(`src/modules/custom.rs`) and the default prompt order
(`src/configs/starship_root.rs`).  Components of the repository that are not
part of the provided sources (the format parser, the `Context` accessors, the
scan matcher, the TOML configuration loader) are modelled from the
specification and are marked as such in their doc comments.  External effects
(directory listing, subprocess spawning, environment variables) are supplied
as oracle data inside the embedded `Context`/`World`, so every definition is
an executable function of its inputs.
-/

namespace Starship

/-- Style applied to a segment.  The embedding keeps styles abstract: the
default `Color::Green.bold()` style and any style coming from configuration. -/
inductive Style where
  | greenBold
  | fromConfig (s : String)
  deriving DecidableEq, Repr

/-- Segment (spec §3): name for diagnostics, text value, optional style. -/
structure Segment where
  name : String
  value : String
  style : Option Style := none
  deriving DecidableEq, Repr

/-- Creates a segment the way `Segment::new` does: empty value, no style. -/
def Segment.new (name : String) : Segment :=
  { name := name, value := "", style := none }

/-- Sets the value of a segment (`Segment::set_value`). -/
def Segment.set_value (s : Segment) (v : String) : Segment :=
  { s with value := v }

/-- Module (spec §3): name, description, prefix and suffix segments, and the
ordered content segments. -/
structure Module where
  name : String
  description : String
  prefixSeg : Segment
  suffixSeg : Segment
  segments : List Segment
  deriving DecidableEq, Repr

/-- Creates a module the way `Module::new` does, with empty segment list. -/
def Module.new (name : String) (description : String) : Module :=
  { name := name, description := description,
    prefixSeg := Segment.new (name ++ "_prefix"),
    suffixSeg := Segment.new (name ++ "_suffix"),
    segments := [] }

/-- Appends a content segment (`Module::create_segment`). -/
def Module.create_segment (m : Module) (name : String) (value : String)
    (style : Option Style) : Module :=
  { m with segments := m.segments ++ [{ name := name, value := value, style := style }] }

/-- Minimal TOML value tree, enough for the custom-module configuration table
(`toml::Value` as used by `src/print.rs` and `src/modules/custom.rs`). -/
inductive Toml where
  | bool (b : Bool)
  | str (s : String)
  | int (n : Int)
  | array (xs : List Toml)
  | table (kvs : List (String × Toml))

/-- Table lookup, as `toml::Value::get`: `none` on non-tables. -/
def Toml.get (t : Toml) (key : String) : Option Toml :=
  match t with
  | .table kvs => kvs.lookup key
  | _ => none

/-- As `toml::Value::as_bool`. -/
def Toml.as_bool (t : Toml) : Option Bool :=
  match t with
  | .bool b => some b
  | _ => none

/-- As `toml::Value::as_str`. -/
def Toml.as_str (t : Toml) : Option String :=
  match t with
  | .str s => some s
  | _ => none

/-- Reads an array-of-strings key of a custom-module table, defaulting to the
empty list (the loader's default for `files`/`extensions`/`directories`). -/
def tomlStrList (t : Option Toml) : List String :=
  match t with
  | some (.array xs) => xs.filterMap Toml.as_str
  | _ => []

/-- Shell kinds (`context::Shell`).  Modelled from the spec: `context.rs` is
not in `src/`; §3 records that the Context carries the invoking shell kind,
and `src/print.rs` matches on the Fish variant. -/
inductive Shell where
  | bash
  | fish
  | ion
  | powershell
  | zsh
  | unknown
  deriving DecidableEq, Repr

/-- Result of waiting on a spawned process: exit-status success flag and the
captured standard output and standard error (`std::process::Output`). -/
structure ProcResult where
  success : Bool
  stdout : String
  stderr : String
  deriving DecidableEq, Repr

/-- A spawned child process, as the embedding sees it: whether writing the
command text to its stdin succeeds, and the outcome of waiting for it as a
function of what was written. -/
structure Child where
  writeOk : String → Bool
  wait : String → Option ProcResult

/-- The process world seen by `src/modules/custom.rs`: the `STARSHIP_SHELL`
environment variable and a spawn oracle mapping a program and its arguments
to a child process (`none` models a spawn error). -/
structure World where
  starshipShell : Option String
  spawn : String → List String → Option Child

/-- Embeds `get_shell` (src/modules/custom.rs lines 79-88): the configured
shell if given, else the `STARSHIP_SHELL` environment variable, else `sh`. -/
def get_shell (w : World) (shell : Option String) : String :=
  match shell with
  | some forced_shell => forced_shell
  | none =>
    match w.starshipShell with
    | some env_shell => env_shell
    | none => "sh"

/-- Writing the command to the child's stdin (`write_all(..).ok()?`) followed
by `wait_with_output().ok()`. -/
def runChild (child : Child) (cmd : String) : Option ProcResult :=
  if child.writeOk cmd then child.wait cmd else none

/-- Embeds `shell_command` (src/modules/custom.rs lines 92-118, non-Windows):
spawn the resolved shell; if that spawn errors, retry exactly once with
`/bin/env sh`; then pipe the command text through stdin and wait. -/
def shell_command (w : World) (cmd : String) (shell : Option String) :
    Option ProcResult :=
  match w.spawn (get_shell w shell) [] with
  | some child => runChild child cmd
  | none =>
    match w.spawn "/bin/env" ["sh"] with
    | some child => runChild child cmd
    | none => none

/-- Embeds `exec_when` (src/modules/custom.rs lines 162-184): run the gating
command and report whether it exited successfully; a spawn failure is
reported as `false`. -/
def exec_when (w : World) (cmd : String) (shell : Option String) : Bool :=
  match shell_command w cmd shell with
  | some output => output.success
  | none => false

/-- Embeds `exec_command` (src/modules/custom.rs lines 187-208): run the
output command; on a successful exit return its standard output, otherwise
(non-zero exit or spawn failure) return nothing. -/
def exec_command (w : World) (cmd : String) (shell : Option String) :
    Option String :=
  match shell_command w cmd shell with
  | some output => if output.success then some output.stdout else none
  | none => none

/-- Whitespace-trimming of a character list: drop leading and trailing
whitespace characters, as `str::trim` does (restricted to the ASCII
whitespace characters the embedding's `Char.isWhitespace` recognises). -/
def trimChars (l : List Char) : List Char :=
  ((l.dropWhile Char.isWhitespace).reverse.dropWhile Char.isWhitespace).reverse

/-- String-level whitespace trimming (`str::trim`). -/
def strTrim (s : String) : String :=
  String.mk (trimChars s.data)

/-- String emptiness (`str::is_empty`): no characters. -/
def strIsEmpty (s : String) : Bool :=
  s.data.isEmpty

/-- Prefix test (`str::starts_with`), on character lists standing for the
source's bytes. -/
def strStartsWith (s pre : String) : Bool :=
  s.data.take pre.data.length == pre.data

/-- Custom-module configuration after loading (spec §6 table). -/
structure CustomConfig where
  files : List String
  extensions : List String
  directories : List String
  when : Option String
  shell : Option String
  command : String
  symbol : Option String
  style : Option Style
  prefixStr : Option String
  suffixStr : Option String
  description : String

/-- Modelled from the spec: `CustomConfig::load` (configs/custom.rs is not in
`src/`).  Reads the fields of the §6 custom-module schema from the TOML
table; the three match-criterion sets default to empty, the display fields
default to absent. -/
def CustomConfig.load (t : Toml) : CustomConfig :=
  { files := tomlStrList (t.get "files"),
    extensions := tomlStrList (t.get "extensions"),
    directories := tomlStrList (t.get "directories"),
    when := (t.get "when").bind Toml.as_str,
    shell := (t.get "shell").bind Toml.as_str,
    command := ((t.get "command").bind Toml.as_str).getD "",
    symbol := (t.get "symbol").bind Toml.as_str,
    style := ((t.get "style").bind Toml.as_str).map Style.fromConfig,
    prefixStr := (t.get "prefix").bind Toml.as_str,
    suffixStr := (t.get "suffix").bind Toml.as_str,
    description := ((t.get "description").bind Toml.as_str).getD "<custom module>" }

/-- One directory entry seen by the scan matcher: full name, whether it is a
subdirectory, and its extension if any. -/
structure DirEntry where
  name : String
  isDir : Bool
  ext : Option String
  deriving DecidableEq, Repr

/-- Modelled from the spec: `ScanDir` (context.rs is not in `src/`), per
§4.3 — the directory's entries plus the requested file/extension/folder
criteria, set builder-style. -/
structure ScanDir where
  entries : List DirEntry
  files : List String
  extensions : List String
  folders : List String

/-- Builder setter for the requested file names (§4.3). -/
def ScanDir.set_files (sd : ScanDir) (fs : List String) : ScanDir :=
  { sd with files := fs }

/-- Builder setter for the requested extensions (§4.3). -/
def ScanDir.set_extensions (sd : ScanDir) (exts : List String) : ScanDir :=
  { sd with extensions := exts }

/-- Builder setter for the requested subfolder names (§4.3). -/
def ScanDir.set_folders (sd : ScanDir) (ds : List String) : ScanDir :=
  { sd with folders := ds }

/-- Modelled from the spec: `ScanDir::is_match` (§4.3) — true if any
requested file name matches an entry's full name, or any requested extension
matches an entry's extension, or any requested folder name matches a
subdirectory entry's name; empty criteria sets are vacuously non-matching. -/
def ScanDir.is_match (sd : ScanDir) : Bool :=
  sd.entries.any (fun e => sd.files.contains e.name)
    || sd.entries.any (fun e =>
        match e.ext with
        | some x => sd.extensions.contains x
        | none => false)
    || sd.entries.any (fun e => e.isDir && sd.folders.contains e.name)

/-- An abstract parsed format string.  Modelled from the spec: the format
parser/evaluator (formatter module) is not in `src/`; per §4.1-§4.2 a parsed
template exposes the list of variables it references, and rendering applies a
variable-to-segments mapping and concatenates the resulting segments. -/
structure Formatter where
  vars : List String
  render : (String → Option (List Segment)) → List Segment

/-- The embedded `Context` (spec §3): shell kind, the parse result of the
configured format string, the custom-module configuration table, oracles for
the collaborators that are not in `src/` (builtin-module dispatch, the
disabled flag of builtin modules, message segments, ANSI rendering), the
process world, and the directory snapshot with its one-time scan cache. -/
structure Context where
  shell : Shell
  formatParse : Except Unit Formatter
  customModules : Option (List (String × Toml))
  moduleDisabled : String → Bool
  builtinModule : String → Option Module
  world : World
  readDir : Option (List DirEntry)
  scanCache : Option (List DirEntry)
  messageSegments : List Segment
  ansiRender : Shell → List Segment → String

/-- The directory listing the scan matcher sees: the cached listing when the
cache is populated, otherwise the filesystem snapshot (spec §4.3: listed
exactly once per Context lifetime). -/
def Context.dirEntries (ctx : Context) : Option (List DirEntry) :=
  match ctx.scanCache with
  | some es => some es
  | none => ctx.readDir

/-- Modelled from the spec: `Context::try_begin_scan` (context.rs is not in
`src/`) — begins a scan session over the directory listing; a listing
failure yields `none` and the depending module simply does not match. -/
def Context.try_begin_scan (ctx : Context) : Option ScanDir :=
  (Context.dirEntries ctx).map
    (fun es => { entries := es, files := [], extensions := [], folders := [] })

/-- Modelled from the spec: `Config::get_custom_modules` (config handling is
not in `src/`) — the `[custom]` table of the configuration, if present. -/
def getCustomModules (ctx : Context) : Option (List (String × Toml)) :=
  ctx.customModules

/-- Modelled from the spec: `Config::get_custom_module_config` (config
handling is not in `src/`) — the configuration table of one named custom
module. -/
def getCustomModuleConfig (ctx : Context) (name : String) : Option Toml :=
  (getCustomModules ctx).bind (fun tbl => tbl.lookup name)

/-- Modelled from the spec: `Context::is_custom_module_disabled_in_config`
(context.rs is not in `src/`) — `none` when the named custom module has no
configuration, otherwise whether its `disabled` key is the boolean true. -/
def isCustomModuleDisabledInConfig (ctx : Context) (name : String) :
    Option Bool :=
  (getCustomModuleConfig ctx name).map
    (fun cfg => ((cfg.get "disabled").bind Toml.as_bool).getD false)

/-- Applies the three structural criteria of a custom config to a scan
session exactly as src/modules/custom.rs lines 24-32 do: each criterion is
installed only when its set is non-empty. -/
def configureScan (config : CustomConfig) (sd : ScanDir) : ScanDir :=
  let sd1 := if !config.files.isEmpty then sd.set_files config.files else sd
  let sd2 :=
    if !config.extensions.isEmpty then sd1.set_extensions config.extensions
    else sd1
  if !config.directories.isEmpty then sd2.set_folders config.directories
  else sd2

/-- The match decision of `modules::custom::module` (src/modules/custom.rs
lines 34-44): the structural scan result, falling back to the `when` gating
command (when one is configured) only when the scan did not match. -/
def customMatches (config : CustomConfig) (ctx : Context) (sd : ScanDir) :
    Bool :=
  let is_match := (configureScan config sd).is_match
  if !is_match then
    match config.when with
    | some when_cmd => exec_when ctx.world when_cmd config.shell
    | none => false
  else is_match

/-- The module-construction half of `modules::custom::module`
(src/modules/custom.rs lines 46-76): optional prefix/suffix/symbol, then the
configured command's trimmed output as the `output` segment with the
configured (or default green bold) style; nothing when the command fails or
its trimmed output is empty. -/
def assembleCustomModule (name : String) (config : CustomConfig)
    (ctx : Context) : Option Module :=
  let m := Module.new name config.description
  let style := config.style.getD Style.greenBold
  let m :=
    match config.prefixStr with
    | some p => { m with prefixSeg := m.prefixSeg.set_value p }
    | none => m
  let m :=
    match config.suffixStr with
    | some s => { m with suffixSeg := m.suffixSeg.set_value s }
    | none => m
  let m :=
    match config.symbol with
    | some sym => m.create_segment "symbol" sym none
    | none => m
  match exec_command ctx.world config.command config.shell with
  | some output =>
    let trimmed := strTrim output
    if strIsEmpty trimmed then none
    else some (m.create_segment "output" trimmed (some style))
  | none => none

/-- Embeds the body of `modules::custom::module` (src/modules/custom.rs lines
20-76), after the configuration for `name` has been found: structural scan,
optional `when` gating command, then module construction. -/
def customModuleBody (name : String) (tomlConfig : Toml) (ctx : Context) :
    Option Module :=
  let config := CustomConfig.load tomlConfig
  match Context.try_begin_scan ctx with
  | none => none
  | some scan_dir =>
    if !customMatches config ctx scan_dir then none
    else assembleCustomModule name config ctx

/-- Embeds `modules::custom::module` (src/modules/custom.rs lines 16-76).
The `expect` on a missing configuration is modelled as the `error` case. -/
def customModuleE (name : String) (ctx : Context) :
    Except String (Option Module) :=
  match getCustomModuleConfig ctx name with
  | none =>
    .error "modules::custom::module should only be called after ensuring that the module exists"
  | some tomlConfig => .ok (customModuleBody name tomlConfig ctx)

/-- Embeds `PROMPT_ORDER` (src/configs/starship_root.rs lines 11-53).  The
array is declared `[&str; 36]` and lists 36 unconditional entries plus a
`battery` entry gated behind the `battery` cargo feature; with that feature
the array would have 37 entries and not compile, so every compiling build has
exactly these 36 entries, without `battery`. -/
def PROMPT_ORDER : List String :=
  ["username", "hostname", "singularity", "kubernetes", "directory",
   "git_branch", "git_commit", "git_state", "git_status", "hg_branch",
   "docker_context", "package", "dotnet", "elixir", "elm", "golang",
   "haskell", "java", "julia", "nodejs", "php", "python", "ruby", "rust",
   "terraform", "nix_shell", "conda", "memory_usage", "aws", "env_var",
   "cmd_duration", "custom", "\n", "jobs", "time", "character"]

/-- Modelled from the spec: `ALL_MODULES` (module.rs is not in `src/`) — the
registry of recognized builtin module identifiers of §4.5; per §6 these are
the default-order entries other than the line-break sentinel and the `custom`
wildcard, plus the `line_break` module. -/
def ALL_MODULES : List String :=
  ["aws", "battery", "character", "cmd_duration", "conda", "directory",
   "docker_context", "dotnet", "elixir", "elm", "env_var", "git_branch",
   "git_commit", "git_state", "git_status", "golang", "haskell", "hg_branch",
   "hostname", "java", "jobs", "julia", "kubernetes", "line_break",
   "memory_usage", "nix_shell", "nodejs", "package", "php", "python", "ruby",
   "rust", "singularity", "terraform", "time", "username"]

/-- Diagnostics emitted by the orchestrator, one constructor per log site of
`src/print.rs` that the claims mention. -/
inductive LogEvent where
  | errorParsingFormat
  | unknownCustomModuleWithList (moduleName : String)
  | unknownCustomModule (moduleName : String)
  | unknownVariable (moduleName : String)
  deriving DecidableEq, Repr

/-- The explicit-reference test of `should_add_implicit_custom_module`
(src/print.rs lines 278-281), on character lists standing for the source's
byte slices: `x` has exactly 7 more units than `custom_module`, its first 7
are `custom.` and the rest are `custom_module`. -/
def explicitCheck (x : String) (custom_module : String) : Bool :=
  x.data.length == 7 + custom_module.data.length
    && x.data.take 7 == "custom.".data
    && x.data.drop 7 == custom_module.data

/-- Embeds `should_add_implicit_custom_module` (src/print.rs lines 270-295):
a configured custom module joins the implicit `custom` expansion when it is
not explicitly named as `custom.<name>` in the requested variables and its
`disabled` key is not the boolean true. -/
def should_add_implicit_custom_module (custom_module : String)
    (config : Toml) (config_prompt_order : List String) : Bool :=
  let is_explicitly_specified :=
    config_prompt_order.any (fun x => explicitCheck x custom_module)
  if is_explicitly_specified then false
  else
    !(((config.get "disabled").getD (Toml.bool false)).as_bool.getD false)

/-- The per-entry pass of the `custom` wildcard branch (src/print.rs lines
229-240): map every configured custom module to its optional resolution,
keeping this embedding's explicit panic propagation. -/
def collectCustom (ctx : Context) (module_list : List String) :
    List (String × Toml) → Except String (List (Option Module))
  | [] => .ok []
  | p :: rest =>
    match
      (if should_add_implicit_custom_module p.1 p.2 module_list then
        customModuleE p.1 ctx
      else .ok none) with
    | .error e => .error e
    | .ok head =>
      match collectCustom ctx module_list rest with
      | .error e => .error e
      | .ok tail => .ok (head :: tail)

/-- Embeds `handle_module` (src/print.rs lines 208-268): dispatch on builtin
identifiers, the `custom` wildcard, the `custom.` prefix, and unknown
variables; the result pairs the produced modules with the diagnostics
logged.  The `error` case models the panic of `modules::custom::module` on a
missing configuration. -/
def handle_moduleE (moduleName : String) (ctx : Context)
    (module_list : List String) :
    Except String (List Module × List LogEvent) :=
  if ALL_MODULES.contains moduleName then
    .ok
      (if !ctx.moduleDisabled moduleName then
        ((ctx.builtinModule moduleName).toList, [])
      else ([], []))
  else if moduleName == "custom" then
    match getCustomModules ctx with
    | some custom_modules =>
      match collectCustom ctx module_list custom_modules with
      | .error e => .error e
      | .ok opts => .ok (opts.filterMap id, [])
    | none => .ok ([], [])
  else if strStartsWith moduleName "custom." then
    match isCustomModuleDisabledInConfig ctx (moduleName.drop 7) with
    | some true => .ok ([], [])
    | some false =>
      match customModuleE (moduleName.drop 7) ctx with
      | .error e => .error e
      | .ok m => .ok (m.toList, [])
    | none =>
      .ok ([],
        [match getCustomModules ctx with
         | some _ => LogEvent.unknownCustomModuleWithList moduleName
         | none => LogEvent.unknownCustomModule moduleName])
  else
    .ok ([], [LogEvent.unknownVariable moduleName])

/-- The total view of `handle_module` used by the prompt assembly; the panic
case (proved unreachable below) defaults to no modules. -/
def handle_module_run (moduleName : String) (ctx : Context)
    (module_list : List String) : List Module × List LogEvent :=
  match handle_moduleE moduleName ctx module_list with
  | .ok r => r
  | .error _ => ([], [])

/-- The unconditional newline segment substituted for the line-break sentinel
of `PROMPT_ORDER` (src/print.rs lines 53-57). -/
def lineBreakSegment : Segment :=
  (Segment.new "line_break").set_value "\n"

/-- Embeds the variable-to-segments closure passed to
`map_variables_to_segments` (src/print.rs lines 46-79): `all` expands to the
default order with the sentinel mapped to a literal newline, a disabled
module maps to no binding, and anything else maps to the segments its
resolved modules produce. -/
def mapVariableToSegments (ctx : Context) (modules : List String)
    (moduleName : String) : Option (List Segment) :=
  if moduleName == "all" then
    some
      (PROMPT_ORDER.flatMap (fun m =>
        if m == "\n" then [lineBreakSegment]
        else (handle_module_run m ctx modules).1.flatMap Module.segments))
  else if ctx.moduleDisabled moduleName then none
  else some ((handle_module_run moduleName ctx modules).1.flatMap Module.segments)

/-- Embeds `get_prompt` (src/print.rs lines 24-108): the fish clear-screen
workaround, the parse-failure fallback, and otherwise the message segments
followed by the rendered template, all ANSI-rendered for the current shell.
The second component records the diagnostics logged by `get_prompt` itself. -/
def get_prompt (ctx : Context) : String × List LogEvent :=
  let buf := if ctx.shell == Shell.fish then "\x1b[J" else ""
  match ctx.formatParse with
  | .error _ => (buf ++ ">", [LogEvent.errorParsingFormat])
  | .ok formatter =>
    let modules := formatter.vars
    let segments :=
      ctx.messageSegments
        ++ formatter.render (fun v => mapVariableToSegments ctx modules v)
    (buf ++ ctx.ansiRender ctx.shell segments, [])

/-- The portion of `get_prompt` that follows the fish workaround: the
parse-failure fallback character, or the rendered prompt body. -/
def prompt_rest (ctx : Context) : String :=
  match ctx.formatParse with
  | .error _ => ">"
  | .ok formatter =>
    ctx.ansiRender ctx.shell
      (ctx.messageSegments
        ++ formatter.render
          (fun v => mapVariableToSegments ctx formatter.vars v))

/-- The context after one render: the scan cache has been populated (at most
once) from the filesystem snapshot, and nothing else has changed (spec §3,
§5: the cache is the only mutable shared state). -/
def afterRender (ctx : Context) : Context :=
  match ctx.scanCache with
  | some _ => ctx
  | none => { ctx with scanCache := ctx.readDir }

/-! ### Helper lemmas -/

/-- Two strings are equal when their character lists are. -/
theorem stringDataEq {s t : String} (h : s.data = t.data) : s = t := by
  cases s
  cases t
  simp_all

/-- Appending strings appends their character lists. -/
theorem stringDataAppend (s t : String) : (s ++ t).data = s.data ++ t.data := String.data_append s t

/-- The explicit-reference test of `should_add_implicit_custom_module` holds
exactly when the requested variable is the dotted name `custom.<name>`. -/
theorem explicitCheck_iff (x custom_module : String) :
    explicitCheck x custom_module = true ↔ x = "custom." ++ custom_module := by
  unfold explicitCheck
  simp only [Bool.and_eq_true, beq_iff_eq, Nat.beq_eq_true_eq]
  constructor
  · rintro ⟨⟨hlen, htake⟩, hdrop⟩
    apply stringDataEq
    rw [stringDataAppend]
    calc x.data = x.data.take 7 ++ x.data.drop 7 := (List.take_append_drop 7 x.data).symm
      _ = "custom.".data ++ custom_module.data := by rw [htake, hdrop]
  · rintro rfl
    have hdata : ("custom." ++ custom_module).data
        = "custom.".data ++ custom_module.data := stringDataAppend _ _
    have hseven : ("custom.".data).length = 7 := rfl
    refine ⟨⟨?_, ?_⟩, ?_⟩
    · rw [hdata, List.length_append, hseven]
    · rw [hdata, ← hseven, List.take_left]
    · rw [hdata, ← hseven, List.drop_left]

/-- The boolean disabled flag read by both `should_add_implicit_custom_module`
and the explicit-reference dispatch: the `disabled` key of the custom
module's table, when it is a boolean, and `false` otherwise. -/
def disabledFlag (cfg : Toml) : Bool :=
  ((cfg.get "disabled").bind Toml.as_bool).getD false

/-- The source's `unwrap_or(&false_value)` then `as_bool().unwrap_or(false)`
chain computes `disabledFlag`. -/
theorem disabledFlag_eq (cfg : Toml) :
    ((cfg.get "disabled").getD (Toml.bool false)).as_bool.getD false
      = disabledFlag cfg := by
  unfold disabledFlag
  cases cfg.get "disabled" <;> rfl

/-- A scan session whose three criteria sets are all empty never matches. -/
theorem is_match_empty (entries : List DirEntry) :
    ScanDir.is_match { entries := entries, files := [], extensions := [], folders := [] } = false := by
  unfold ScanDir.is_match
  simp only [List.contains_nil, Bool.or_eq_false_iff, List.any_eq_false]
  refine ⟨⟨fun e _ => by simp, fun e _ => ?_⟩, fun e _ => by simp⟩
  cases e.ext <;> simp

/-! ### C5: shell resolution and single fallback retry -/

/-- C5: for both gating and output commands, the shell used is the
explicitly configured one if given, else the `STARSHIP_SHELL` environment
override, else the platform default `sh`; and when spawning that primary
shell fails, exactly one retry is made with the portable `/bin/env sh`
invocation before giving up. -/
theorem claim_c5_shell_resolution_and_retry (w : World) (cmd : String)
    (sh : Option String) :
    (∀ s, sh = some s → get_shell w sh = s)
    ∧ (sh = none → ∀ e, w.starshipShell = some e → get_shell w sh = e)
    ∧ (sh = none → w.starshipShell = none → get_shell w sh = "sh")
    ∧ (∀ c, w.spawn (get_shell w sh) [] = some c →
        shell_command w cmd sh = runChild c cmd)
    ∧ (w.spawn (get_shell w sh) [] = none →
        ∀ c, w.spawn "/bin/env" ["sh"] = some c →
          shell_command w cmd sh = runChild c cmd)
    ∧ (w.spawn (get_shell w sh) [] = none →
        w.spawn "/bin/env" ["sh"] = none →
          shell_command w cmd sh = none) := by
  refine ⟨?_, ?_, ?_, ?_, ?_, ?_⟩
  · rintro s rfl
    rfl
  · rintro rfl e he
    unfold get_shell
    rw [he]
  · rintro rfl hn
    unfold get_shell
    rw [hn]
  · intro c hc
    unfold shell_command
    rw [hc]
  · intro h1 c hc
    unfold shell_command
    rw [h1, hc]
  · intro h1 h2
    unfold shell_command
    rw [h1, h2]

/-- A successful process outcome with whitespace-padded output `hi`. -/
def procHi : ProcResult :=
  { success := true, stdout := " hi \n", stderr := "oops" }

/-- A child process whose wait always reports success with output `hi`. -/
def childOk : Child :=
  { writeOk := fun _ => true, wait := fun _ => some procHi }

/-- A world that can spawn only the `zsh` program. -/
def worldZshOnly : World :=
  { starshipShell := some "fish",
    spawn := fun p _ => if p == "zsh" then some childOk else none }

/-- A world that can spawn only the `/bin/env` fallback. -/
def worldFallbackOnly : World :=
  { starshipShell := none,
    spawn := fun p _ => if p == "/bin/env" then some childOk else none }

/-- A world in which every spawn fails. -/
def worldNoSpawn : World :=
  { starshipShell := none, spawn := fun _ _ => none }

theorem claim_c5_witness :
    get_shell worldZshOnly (some "zsh") = "zsh"
    ∧ shell_command worldZshOnly "echo hi" (some "zsh") = runChild childOk "echo hi"
    ∧ get_shell worldFallbackOnly none = "sh"
    ∧ shell_command worldFallbackOnly "echo hi" none = runChild childOk "echo hi"
    ∧ shell_command worldNoSpawn "echo hi" none = none := by
  refine ⟨?_, ?_, ?_, ?_, ?_⟩
  · exact (claim_c5_shell_resolution_and_retry worldZshOnly "echo hi" (some "zsh")).1 "zsh" rfl
  · exact (claim_c5_shell_resolution_and_retry worldZshOnly "echo hi" (some "zsh")).2.2.2.1 childOk rfl
  · exact (claim_c5_shell_resolution_and_retry worldFallbackOnly "echo hi" none).2.2.1 rfl rfl
  · exact (claim_c5_shell_resolution_and_retry worldFallbackOnly "echo hi" none).2.2.2.2.1 rfl childOk rfl
  · exact (claim_c5_shell_resolution_and_retry worldNoSpawn "echo hi" none).2.2.2.2.2 rfl rfl

/-- Unfolding equation of `customModuleBody` when the scan session starts. -/
theorem customModuleBody_scan_some (name : String) (tomlConfig : Toml)
    (ctx : Context) (sd : ScanDir)
    (hscan : Context.try_begin_scan ctx = some sd) :
    customModuleBody name tomlConfig ctx
      = if !customMatches (CustomConfig.load tomlConfig) ctx sd then none
        else assembleCustomModule name (CustomConfig.load tomlConfig) ctx := by
  unfold customModuleBody
  rw [hscan]

/-- Unfolding equation of `customModuleBody` when the scan cannot start. -/
theorem customModuleBody_scan_none (name : String) (tomlConfig : Toml)
    (ctx : Context) (hscan : Context.try_begin_scan ctx = none) :
    customModuleBody name tomlConfig ctx = none := by
  unfold customModuleBody
  rw [hscan]

/-! ### C2: structural match or zero-exit gating command -/

/-- C2: a custom module evaluates to a Module only when the structural scan
matches or a configured `when` gating command exits zero (any other gating
outcome, spawn failure included, is no match); and a config whose three
criteria sets are empty and that has no `when` command never matches. -/
theorem claim_c2_match_gating (name : String) (tomlConfig : Toml)
    (ctx : Context) :
    (∀ m, customModuleBody name tomlConfig ctx = some m →
      ∃ sd, Context.try_begin_scan ctx = some sd
        ∧ ((configureScan (CustomConfig.load tomlConfig) sd).is_match = true
          ∨ ∃ w, (CustomConfig.load tomlConfig).when = some w
              ∧ exec_when ctx.world w (CustomConfig.load tomlConfig).shell = true))
    ∧ (∀ w cmd sh, exec_when w cmd sh = true ↔
        ∃ out, shell_command w cmd sh = some out ∧ out.success = true)
    ∧ ((CustomConfig.load tomlConfig).files = [] →
        (CustomConfig.load tomlConfig).extensions = [] →
        (CustomConfig.load tomlConfig).directories = [] →
        (CustomConfig.load tomlConfig).when = none →
        customModuleBody name tomlConfig ctx = none) := by
  refine ⟨?_, ?_, ?_⟩
  · intro m h
    cases hscan : Context.try_begin_scan ctx with
    | none => rw [customModuleBody_scan_none name tomlConfig ctx hscan] at h; exact absurd h (by simp)
    | some sd =>
      rw [customModuleBody_scan_some name tomlConfig ctx sd hscan] at h
      refine ⟨sd, rfl, ?_⟩
      by_cases hcm : customMatches (CustomConfig.load tomlConfig) ctx sd = true
      · unfold customMatches at hcm
        by_cases hs : (configureScan (CustomConfig.load tomlConfig) sd).is_match = true
        · exact Or.inl hs
        · rw [if_pos (by simp [hs])] at hcm
          cases hwhen : (CustomConfig.load tomlConfig).when with
          | none => rw [hwhen] at hcm; exact absurd hcm (by simp)
          | some w =>
            rw [hwhen] at hcm
            exact Or.inr ⟨w, rfl, hcm⟩
      · rw [if_pos (by simp [hcm])] at h
        exact absurd h (by simp)
  · intro w cmd sh
    unfold exec_when
    cases hsc : shell_command w cmd sh with
    | none => simp
    | some out =>
      constructor
      · intro hs
        exact ⟨out, rfl, hs⟩
      · rintro ⟨out', heq, hs⟩
        cases heq
        exact hs
  · intro h1 h2 h3 h4
    cases hscan : Context.try_begin_scan ctx with
    | none => exact customModuleBody_scan_none name tomlConfig ctx hscan
    | some sd =>
      have hsd : sd.files = [] ∧ sd.extensions = [] ∧ sd.folders = [] := by
        unfold Context.try_begin_scan at hscan
        cases hde : Context.dirEntries ctx with
        | none => rw [hde] at hscan; exact absurd hscan (by simp)
        | some es =>
          rw [hde] at hscan
          simp only [Option.map_some'] at hscan
          cases hscan
          exact ⟨rfl, rfl, rfl⟩
      have hconf : configureScan (CustomConfig.load tomlConfig) sd = sd := by
        unfold configureScan
        rw [h1, h2, h3]
        simp
      have hmatch : customMatches (CustomConfig.load tomlConfig) ctx sd = false := by
        unfold customMatches
        rw [hconf, h4]
        have hm : sd.is_match = false := by
          obtain ⟨hf, he, hd⟩ := hsd
          have hsd' : sd = { entries := sd.entries, files := [], extensions := [], folders := [] } := by
            cases sd
            simp_all
          rw [hsd']
          exact is_match_empty _
        rw [hm]
        simp
      rw [customModuleBody_scan_some name tomlConfig ctx sd hscan, hmatch]
      simp

/-! ### C3: output capture, trimming, and suppression -/

/-- C3: a produced custom Module carries, as its final segment, exactly the
whitespace-trimmed standard output of the configured command under the
configured (or default) style; only standard output is ever captured; and no
Module is produced on spawn failure, non-zero exit, or empty trimmed
output. -/
theorem claim_c3_output_capture (name : String) (tomlConfig : Toml)
    (ctx : Context) :
    (∀ m, customModuleBody name tomlConfig ctx = some m →
      ∃ out, exec_command ctx.world (CustomConfig.load tomlConfig).command
          (CustomConfig.load tomlConfig).shell = some out
        ∧ strIsEmpty (strTrim out) = false
        ∧ m.segments.getLast? = some
            { name := "output", value := strTrim out,
              style := some ((CustomConfig.load tomlConfig).style.getD Style.greenBold) })
    ∧ (∀ w cmd sh out, shell_command w cmd sh = some out →
        exec_command w cmd sh = if out.success then some out.stdout else none)
    ∧ (∀ w cmd sh, shell_command w cmd sh = none →
        exec_command w cmd sh = none)
    ∧ (∀ out, exec_command ctx.world (CustomConfig.load tomlConfig).command
          (CustomConfig.load tomlConfig).shell = some out →
        strIsEmpty (strTrim out) = true →
        customModuleBody name tomlConfig ctx = none) := by
  have hassemble : ∀ out, exec_command ctx.world (CustomConfig.load tomlConfig).command
      (CustomConfig.load tomlConfig).shell = some out →
      strIsEmpty (strTrim out) = true →
      assembleCustomModule name (CustomConfig.load tomlConfig) ctx = none := by
    intro out hexec htrim
    unfold assembleCustomModule
    rw [hexec]
    simp only [htrim]
    rfl
  refine ⟨?_, ?_, ?_, ?_⟩
  · intro m h
    cases hscan : Context.try_begin_scan ctx with
    | none => rw [customModuleBody_scan_none name tomlConfig ctx hscan] at h; exact absurd h (by simp)
    | some sd =>
      rw [customModuleBody_scan_some name tomlConfig ctx sd hscan] at h
      by_cases hcm : customMatches (CustomConfig.load tomlConfig) ctx sd = true
      · rw [hcm] at h
        simp only [Bool.not_true, Bool.false_eq_true, if_false] at h
        unfold assembleCustomModule at h
        cases hexec : exec_command ctx.world (CustomConfig.load tomlConfig).command
            (CustomConfig.load tomlConfig).shell with
        | none => rw [hexec] at h; exact absurd h (by simp)
        | some out =>
          rw [hexec] at h
          by_cases htrim : strIsEmpty (strTrim out) = true
          · simp only [htrim, if_true] at h
            exact absurd h (by simp)
          · simp only [htrim, if_false] at h
            refine ⟨out, rfl, by simpa using htrim, ?_⟩
            cases h
            unfold Module.create_segment
            exact List.getLast?_concat _
      · rw [if_pos (by simp [hcm])] at h
        exact absurd h (by simp)
  · intro w cmd sh out hsc
    unfold exec_command
    rw [hsc]
  · intro w cmd sh hsc
    unfold exec_command
    rw [hsc]
  · intro out hexec htrim
    cases hscan : Context.try_begin_scan ctx with
    | none => exact customModuleBody_scan_none name tomlConfig ctx hscan
    | some sd =>
      rw [customModuleBody_scan_some name tomlConfig ctx sd hscan]
      by_cases hcm : customMatches (CustomConfig.load tomlConfig) ctx sd = true
      · rw [hcm]
        simpa using hassemble out hexec htrim
      · rw [if_pos (by simp [hcm])]

/-! ### Shared witness fixtures -/

/-- A custom-module table with an output command and a `when` command. -/
def tomlEcho : Toml :=
  Toml.table [("command", Toml.str "echo hi"), ("when", Toml.str "true")]

/-- A custom-module table with an output command and no match criteria. -/
def tomlNoCrit : Toml :=
  Toml.table [("command", Toml.str "echo hi")]

/-- A world that can spawn only the `sh` program, which succeeds. -/
def worldShOnly : World :=
  { starshipShell := none,
    spawn := fun p _ => if p == "sh" then some childOk else none }

/-- A sample parsed format string referencing `custom.foo` then `custom`. -/
def fmtSample : Formatter :=
  { vars := ["custom.foo", "custom"],
    render := fun f => ((f "custom.foo").getD []) ++ ((f "custom").getD []) }

/-- A sample context: bash shell, one custom module `foo`, empty directory. -/
def ctxBase : Context :=
  { shell := Shell.bash,
    formatParse := Except.ok fmtSample,
    customModules := some [("foo", tomlEcho)],
    moduleDisabled := fun _ => false,
    builtinModule := fun _ => none,
    world := worldShOnly,
    readDir := some [],
    scanCache := none,
    messageSegments := [],
    ansiRender := fun _ segs => String.join (segs.map Segment.value) }

/-- The module `foo` produces in `ctxBase`. -/
def fooModule : Module :=
  { name := "foo",
    description := "<custom module>",
    prefixSeg := { name := "foo_prefix", value := "", style := none },
    suffixSeg := { name := "foo_suffix", value := "", style := none },
    segments := [{ name := "output", value := "hi", style := some Style.greenBold }] }

/-- A successful process outcome whose output is pure whitespace. -/
def procWs : ProcResult :=
  { success := true, stdout := " \n", stderr := "" }

/-- A child process that succeeds with whitespace-only output. -/
def childWs : Child :=
  { writeOk := fun _ => true, wait := fun _ => some procWs }

/-- A world whose only spawnable program is `sh`, yielding whitespace. -/
def worldWs : World :=
  { starshipShell := none,
    spawn := fun p _ => if p == "sh" then some childWs else none }

/-- `ctxBase` with the whitespace-producing world. -/
def ctxWs : Context :=
  { ctxBase with world := worldWs }

theorem claim_c2_witness :
    (∃ sd, Context.try_begin_scan ctxBase = some sd
      ∧ ((configureScan (CustomConfig.load tomlEcho) sd).is_match = true
        ∨ ∃ w, (CustomConfig.load tomlEcho).when = some w
            ∧ exec_when ctxBase.world w (CustomConfig.load tomlEcho).shell = true))
    ∧ (exec_when worldNoSpawn "true" none = true ↔
        ∃ out, shell_command worldNoSpawn "true" none = some out ∧ out.success = true)
    ∧ customModuleBody "bar" tomlNoCrit ctxBase = none := by
  refine ⟨?_, ?_, ?_⟩
  · exact (claim_c2_match_gating "foo" tomlEcho ctxBase).1 fooModule (by decide)
  · exact (claim_c2_match_gating "foo" tomlEcho ctxBase).2.1 worldNoSpawn "true" none
  · exact (claim_c2_match_gating "bar" tomlNoCrit ctxBase).2.2 (by decide) (by decide)
      (by decide) (by decide)

theorem claim_c3_witness :
    (∃ out, exec_command ctxBase.world (CustomConfig.load tomlEcho).command
        (CustomConfig.load tomlEcho).shell = some out
      ∧ strIsEmpty (strTrim out) = false
      ∧ fooModule.segments.getLast? = some
          { name := "output", value := strTrim out,
            style := some ((CustomConfig.load tomlEcho).style.getD Style.greenBold) })
    ∧ exec_command worldShOnly "echo hi" none
        = (if procHi.success then some procHi.stdout else none)
    ∧ exec_command worldNoSpawn "echo hi" none = none
    ∧ customModuleBody "ws" tomlEcho ctxWs = none := by
  refine ⟨?_, ?_, ?_, ?_⟩
  · exact (claim_c3_output_capture "foo" tomlEcho ctxBase).1 fooModule (by decide)
  · exact (claim_c3_output_capture "foo" tomlEcho ctxBase).2.1 worldShOnly "echo hi" none
      procHi (by decide)
  · exact (claim_c3_output_capture "foo" tomlEcho ctxBase).2.2.1 worldNoSpawn "echo hi" none rfl
  · exact (claim_c3_output_capture "ws" tomlEcho ctxWs).2.2.2 " \n" (by decide) (by decide)

/-! ### C1: implicit wildcard vs explicit custom references -/

/-- A custom module assembled under `name` keeps that name. -/
theorem assembleCustomModule_name (name : String) (config : CustomConfig)
    (ctx : Context) (m : Module)
    (h : assembleCustomModule name config ctx = some m) : m.name = name := by
  unfold assembleCustomModule at h
  dsimp only at h
  cases hex : exec_command ctx.world config.command config.shell with
  | none => rw [hex] at h; exact absurd h (by simp)
  | some output =>
    rw [hex] at h
    dsimp only at h
    by_cases he : strIsEmpty (strTrim output) = true
    · rw [if_pos he] at h
      exact absurd h (by simp)
    · rw [if_neg he] at h
      injection h with h'
      subst h'
      cases config.prefixStr <;> cases config.suffixStr <;> cases config.symbol <;> rfl

/-- A custom module produced under `name` keeps that name. -/
theorem customModuleBody_name (name : String) (tomlConfig : Toml)
    (ctx : Context) (m : Module)
    (h : customModuleBody name tomlConfig ctx = some m) : m.name = name := by
  cases hscan : Context.try_begin_scan ctx with
  | none =>
    rw [customModuleBody_scan_none name tomlConfig ctx hscan] at h
    exact absurd h (by simp)
  | some sd =>
    rw [customModuleBody_scan_some name tomlConfig ctx sd hscan] at h
    by_cases hcm : customMatches (CustomConfig.load tomlConfig) ctx sd = true
    · rw [hcm] at h
      simp only [Bool.not_true, Bool.false_eq_true, if_false] at h
      exact assembleCustomModule_name name (CustomConfig.load tomlConfig) ctx m h
    · rw [if_pos (by simp [hcm])] at h
      exact absurd h (by simp)

/-- A successfully executed custom module keeps the requested name. -/
theorem customModuleE_name (name : String) (ctx : Context) (m : Module)
    (h : customModuleE name ctx = Except.ok (some m)) : m.name = name := by
  unfold customModuleE at h
  cases hcfg : getCustomModuleConfig ctx name with
  | none => rw [hcfg] at h; exact absurd h (by simp)
  | some t =>
    rw [hcfg] at h
    simp only [Except.ok.injEq] at h
    exact customModuleBody_name name t ctx m h

/-- Every module contributed by the wildcard pass comes from a configured
entry that passed `should_add_implicit_custom_module` and resolved. -/
theorem collectCustom_mem (ctx : Context) (lst : List String) :
    ∀ entries opts, collectCustom ctx lst entries = Except.ok opts →
      ∀ m, some m ∈ opts →
        ∃ p, p ∈ entries
          ∧ should_add_implicit_custom_module p.1 p.2 lst = true
          ∧ customModuleE p.1 ctx = Except.ok (some m) := by
  intro entries
  induction entries with
  | nil =>
    intro opts h m hm
    unfold collectCustom at h
    simp only [Except.ok.injEq] at h
    subst h
    exact absurd hm (by simp)
  | cons p rest ih =>
    intro opts h m hm
    unfold collectCustom at h
    cases hh : (if should_add_implicit_custom_module p.1 p.2 lst then
        customModuleE p.1 ctx else Except.ok none) with
    | error e => rw [hh] at h; exact absurd h (by simp)
    | ok head =>
      rw [hh] at h
      cases ht : collectCustom ctx lst rest with
      | error e => rw [ht] at h; exact absurd h (by simp)
      | ok tail =>
        rw [ht] at h
        simp only [Except.ok.injEq] at h
        subst h
        rcases List.mem_cons.mp hm with hhead | htail
        · subst hhead
          by_cases hsh : should_add_implicit_custom_module p.1 p.2 lst = true
          · rw [if_pos hsh] at hh
            exact ⟨p, List.mem_cons_self p rest, hsh, hh⟩
          · rw [if_neg hsh] at hh
            exact absurd hh (by simp)
        · obtain ⟨q, hq, hsh, hcm⟩ := ih tail ht m htail
          exact ⟨q, List.mem_cons_of_mem p hq, hsh, hcm⟩

/-- C1: a configured custom module joins the implicit `custom` wildcard
expansion exactly when it is not explicitly requested as `custom.<name>` and
its `disabled` flag is not true; consequently, when the requested variables
contain `custom.<name>`, the wildcard expansion of `custom` contributes no
module with that name, so the module renders at most once, via the explicit
reference only. -/
theorem claim_c1_wildcard_suppression (ctx : Context) (lst : List String) :
    (∀ name cfg, should_add_implicit_custom_module name cfg lst = true ↔
      (("custom." ++ name) ∉ lst ∧ disabledFlag cfg = false))
    ∧ (∀ tbl mods logs name, getCustomModules ctx = some tbl →
        ("custom." ++ name) ∈ lst →
        handle_moduleE "custom" ctx lst = Except.ok (mods, logs) →
        ∀ m ∈ mods, m.name ≠ name) := by
  have hiff : ∀ name cfg, should_add_implicit_custom_module name cfg lst = true ↔
      (("custom." ++ name) ∉ lst ∧ disabledFlag cfg = false) := by
    intro name cfg
    by_cases hmem : ("custom." ++ name) ∈ lst
    · have hany : lst.any (fun x => explicitCheck x name) = true :=
        List.any_eq_true.mpr ⟨_, hmem, (explicitCheck_iff _ _).mpr rfl⟩
      simp only [should_add_implicit_custom_module, hany, if_true]
      simp [hmem]
    · have hany : lst.any (fun x => explicitCheck x name) = false := by
        rw [List.any_eq_false]
        intro x hx hxc
        rw [(explicitCheck_iff x name).mp hxc] at hx
        exact hmem hx
      simp only [should_add_implicit_custom_module, hany, Bool.false_eq_true, if_false]
      rw [disabledFlag_eq]
      simp [hmem]
  refine ⟨hiff, ?_⟩
  intro tbl mods logs name h1 h2 h3
  have hA : ALL_MODULES.contains "custom" = false := by decide
  unfold handle_moduleE at h3
  rw [hA] at h3
  simp only [Bool.false_eq_true, if_false, beq_self_eq_true, if_true, h1] at h3
  cases hcoll : collectCustom ctx lst tbl with
  | error e => rw [hcoll] at h3; exact absurd h3 (by simp)
  | ok opts =>
    rw [hcoll] at h3
    simp only [Except.ok.injEq, Prod.mk.injEq] at h3
    obtain ⟨hmods, -⟩ := h3
    intro m hm heq
    have hsome : some m ∈ opts := by
      rw [← hmods] at hm
      obtain ⟨o, ho, hom⟩ := List.mem_filterMap.mp hm
      cases o with
      | none => exact absurd hom (by simp)
      | some o' =>
        simp only [Option.some.injEq, id] at hom
        subst hom
        exact ho
    obtain ⟨p, hp, hsh, hcm⟩ := collectCustom_mem ctx lst tbl opts hcoll m hsome
    have hname : m.name = p.1 := customModuleE_name p.1 ctx m hcm
    have hnot : ("custom." ++ p.1) ∉ lst := ((hiff p.1 p.2).mp hsh).1
    rw [heq] at hname
    rw [← hname] at hnot
    exact hnot h2

theorem claim_c1_witness :
    (should_add_implicit_custom_module "foo" tomlEcho ["custom.foo", "custom"] = true ↔
      (("custom." ++ "foo") ∉ ["custom.foo", "custom"] ∧ disabledFlag tomlEcho = false))
    ∧ (∀ m ∈ ([] : List Module), m.name ≠ "foo") := by
  constructor
  · exact (claim_c1_wildcard_suppression ctxBase ["custom.foo", "custom"]).1 "foo" tomlEcho
  · exact (claim_c1_wildcard_suppression ctxBase ["custom.foo", "custom"]).2
      [("foo", tomlEcho)] [] [] "foo" rfl (by decide) rfl

/-! ### C7: unknown or disabled variables resolve to nothing -/

/-- C7: a variable that is not a builtin identifier, not `custom`, and not a
`custom.` reference resolves to no modules with only a diagnostic log; a
`custom.<name>` reference without configuration likewise resolves to nothing
with a diagnostic; a disabled `custom.<name>` resolves to nothing; none of
these is an error. -/
theorem claim_c7_unknown_resolves_empty (ctx : Context) (lst : List String)
    (v : String) :
    (ALL_MODULES.contains v = false → (v == "custom") = false →
      strStartsWith v "custom." = false →
      handle_moduleE v ctx lst
        = Except.ok ([], [LogEvent.unknownVariable v]))
    ∧ (ALL_MODULES.contains v = false → (v == "custom") = false →
      strStartsWith v "custom." = true →
      getCustomModuleConfig ctx (v.drop 7) = none →
      handle_moduleE v ctx lst
        = Except.ok ([],
            [match getCustomModules ctx with
             | some _ => LogEvent.unknownCustomModuleWithList v
             | none => LogEvent.unknownCustomModule v]))
    ∧ (ALL_MODULES.contains v = false → (v == "custom") = false →
      strStartsWith v "custom." = true →
      isCustomModuleDisabledInConfig ctx (v.drop 7) = some true →
      handle_moduleE v ctx lst = Except.ok ([], [])) := by
  refine ⟨?_, ?_, ?_⟩
  · intro h1 h2 h3
    unfold handle_moduleE
    rw [h1, h2, h3]
    simp
  · intro h1 h2 h3 h4
    have hdis : isCustomModuleDisabledInConfig ctx (v.drop 7) = none := by
      unfold isCustomModuleDisabledInConfig
      rw [h4]
      rfl
    unfold handle_moduleE
    rw [h1, h2, h3, hdis]
    simp
  · intro h1 h2 h3 h4
    unfold handle_moduleE
    rw [h1, h2, h3, h4]
    simp

/-- A custom-module table whose `disabled` key is true. -/
def tomlOff : Toml :=
  Toml.table [("command", Toml.str "echo hi"), ("disabled", Toml.bool true)]

/-- `ctxBase` with a single disabled custom module `off`. -/
def ctxOff : Context :=
  { ctxBase with customModules := some [("off", tomlOff)] }

theorem claim_c7_witness :
    handle_moduleE "widget" ctxBase ["widget"]
      = Except.ok ([], [LogEvent.unknownVariable "widget"])
    ∧ handle_moduleE "custom.nope" ctxBase ["custom.nope"]
      = Except.ok ([], [LogEvent.unknownCustomModuleWithList "custom.nope"])
    ∧ handle_moduleE "custom.off" ctxOff ["custom.off"]
      = Except.ok ([], []) := by
  refine ⟨?_, ?_, ?_⟩
  · exact (claim_c7_unknown_resolves_empty ctxBase ["widget"] "widget").1
      (by decide) (by decide) (by decide)
  · exact (claim_c7_unknown_resolves_empty ctxBase ["custom.nope"] "custom.nope").2.1
      (by decide) (by decide) (by decide) rfl
  · exact (claim_c7_unknown_resolves_empty ctxOff ["custom.off"] "custom.off").2.2
      (by decide) (by decide) (by decide) rfl

/-! ### C9: the missing-configuration panic is unreachable -/

/-- A key present in an association list always has a successful lookup. -/
theorem lookup_isSome_of_mem :
    ∀ (tbl : List (String × Toml)) (p : String × Toml), p ∈ tbl →
      (tbl.lookup p.1).isSome = true := by
  intro tbl
  induction tbl with
  | nil =>
    intro p h
    exact absurd h (by simp)
  | cons q rest ih =>
    intro p h
    obtain ⟨k, v⟩ := q
    by_cases hbeq : (p.1 == k) = true
    · simp [List.lookup, hbeq]
    · rcases List.mem_cons.mp h with rfl | hmem
      · exact absurd (by simp) hbeq
      · simp only [List.lookup, hbeq]
        exact ih p hmem

/-- The executor succeeds on every key of the configured custom table. -/
theorem customModuleE_isOk_of_mem (ctx : Context)
    (tbl : List (String × Toml)) (hctx : getCustomModules ctx = some tbl)
    (q : String × Toml) (hq : q ∈ tbl) :
    (customModuleE q.1 ctx).isOk = true := by
  unfold customModuleE
  have hcfg : getCustomModuleConfig ctx q.1 = tbl.lookup q.1 := by
    unfold getCustomModuleConfig
    rw [hctx]
    rfl
  rw [hcfg]
  cases hl : tbl.lookup q.1 with
  | none =>
    have := lookup_isSome_of_mem tbl q hq
    rw [hl] at this
    exact absurd this (by simp)
  | some t => rfl

/-- The wildcard pass succeeds whenever its entries come from the configured
table. -/
theorem collectCustom_isOk (ctx : Context) (lst : List String)
    (tbl : List (String × Toml)) (hctx : getCustomModules ctx = some tbl) :
    ∀ entries, (∀ p ∈ entries, p ∈ tbl) →
      (collectCustom ctx lst entries).isOk = true := by
  intro entries
  induction entries with
  | nil =>
    intro _
    rfl
  | cons p rest ih =>
    intro hsub
    unfold collectCustom
    cases hh : (if should_add_implicit_custom_module p.1 p.2 lst then
        customModuleE p.1 ctx else Except.ok none) with
    | error e =>
      exfalso
      by_cases hsh : should_add_implicit_custom_module p.1 p.2 lst = true
      · rw [if_pos hsh] at hh
        have hok := customModuleE_isOk_of_mem ctx tbl hctx p
          (hsub p (List.mem_cons_self p rest))
        rw [hh] at hok
        simp [Except.isOk, Except.toBool] at hok
      · rw [if_neg hsh] at hh
        exact absurd hh (by simp)
    | ok head =>
      cases ht : collectCustom ctx lst rest with
      | error e =>
        exfalso
        have hok := ih (fun q hq => hsub q (List.mem_cons_of_mem p hq))
        rw [ht] at hok
        simp [Except.isOk, Except.toBool] at hok
      | ok tail => rfl

/-- C9: `modules::custom::module` demands an existing configuration (the
embedded `error` models its panic), and every orchestrator dispatch path that
reaches it — the explicit `custom.<name>` branch and the implicit `custom`
wildcard — supplies a name whose configuration exists, so `handle_module`
never hits the panic. -/
theorem claim_c9_panic_unreachable (ctx : Context) (lst : List String)
    (v : String) :
    ((getCustomModuleConfig ctx v).isNone = true →
      (customModuleE v ctx).isOk = false)
    ∧ (handle_moduleE v ctx lst).isOk = true := by
  constructor
  · intro h
    unfold customModuleE
    rw [Option.isNone_iff_eq_none.mp h]
    rfl
  · unfold handle_moduleE
    cases h1 : ALL_MODULES.contains v with
    | true => simp [h1, Except.isOk, Except.toBool]
    | false =>
      cases h2 : (v == "custom") with
      | true =>
        cases h3 : getCustomModules ctx with
        | none => simp [h1, h2, h3, Except.isOk, Except.toBool]
        | some tbl =>
          cases hcoll : collectCustom ctx lst tbl with
          | error e =>
            exfalso
            have hok := collectCustom_isOk ctx lst tbl h3 tbl (fun q hq => hq)
            rw [hcoll] at hok
            simp [Except.isOk, Except.toBool] at hok
          | ok opts => simp [h1, h2, h3, hcoll, Except.isOk, Except.toBool]
      | false =>
        cases h4 : strStartsWith v "custom." with
        | false => simp [h1, h2, h4, Except.isOk, Except.toBool]
        | true =>
          cases h5 : isCustomModuleDisabledInConfig ctx (v.drop 7) with
          | none => simp [h1, h2, h4, h5, Except.isOk, Except.toBool]
          | some b =>
            cases b with
            | false =>
              cases hcme : customModuleE (v.drop 7) ctx with
              | error e =>
                exfalso
                unfold customModuleE at hcme
                cases hg : getCustomModuleConfig ctx (v.drop 7) with
                | none =>
                  unfold isCustomModuleDisabledInConfig at h5
                  rw [hg] at h5
                  exact absurd h5 (by simp)
                | some t =>
                  rw [hg] at hcme
                  exact absurd hcme (by simp)
              | ok mo => simp [h1, h2, h4, h5, hcme, Except.isOk, Except.toBool]
            | true => simp [h1, h2, h4, h5, Except.isOk, Except.toBool]

theorem claim_c9_witness :
    (customModuleE "nope" ctxBase).isOk = false
    ∧ (handle_moduleE "custom" ctxBase ["custom"]).isOk = true := by
  constructor
  · exact (claim_c9_panic_unreachable ctxBase ["custom"] "nope").1 rfl
  · exact (claim_c9_panic_unreachable ctxBase ["custom"] "custom").2

/-! ### C4: the `all` variable expands to the fixed default order -/

/-- C4: the variable `all` is not looked up in ordinary bindings: it always
expands (even if a binding named `all` is marked disabled) to the
concatenation, in exactly `PROMPT_ORDER`'s order, of one block per entry —
the `"\n"` sentinel becoming the unconditional literal newline segment and
every other entry the segments its resolved modules produce — while a
disabled builtin module resolves to no modules at all. -/
theorem claim_c4_all_expansion (ctx : Context) (modules : List String) :
    (mapVariableToSegments ctx modules "all"
      = some ((PROMPT_ORDER.map (fun m =>
          if m == "\n" then [lineBreakSegment]
          else (handle_module_run m ctx modules).1.flatMap Module.segments)).flatten))
    ∧ (ctx.moduleDisabled "all" = true →
        mapVariableToSegments ctx modules "all" ≠ none)
    ∧ (∀ mName, ALL_MODULES.contains mName = true →
        ctx.moduleDisabled mName = true →
        handle_module_run mName ctx modules = ([], [])) := by
  have hall : mapVariableToSegments ctx modules "all"
      = some ((PROMPT_ORDER.map (fun m =>
          if m == "\n" then [lineBreakSegment]
          else (handle_module_run m ctx modules).1.flatMap Module.segments)).flatten) := rfl
  refine ⟨hall, ?_, ?_⟩
  · intro _
    rw [hall]
    simp
  · intro mName h1 h2
    unfold handle_module_run handle_moduleE
    rw [h1, h2]
    simp

/-- `ctxBase` with every module marked disabled in configuration. -/
def ctxAllOff : Context :=
  { ctxBase with moduleDisabled := fun _ => true }

theorem claim_c4_witness :
    mapVariableToSegments ctxAllOff [] "all" ≠ none
    ∧ handle_module_run "aws" ctxAllOff [] = ([], []) := by
  constructor
  · exact (claim_c4_all_expansion ctxAllOff []).2.1 rfl
  · exact (claim_c4_all_expansion ctxAllOff []).2.2 "aws" (by decide) rfl

/-! ### C10: the fish clear-screen workaround -/

/-- C10: `get_prompt` prepends the `ESC [ J` clear-to-end-of-screen sequence
to its output exactly when the invoking shell is Fish — for every template,
including the parse-failure fallback, where the fish result is the sequence
followed by `>` — and prepends nothing for any other shell. -/
theorem claim_c10_fish_clear_sequence (ctx : Context) :
    ((get_prompt ctx).1
      = (if ctx.shell == Shell.fish then "\x1b[J" else "") ++ prompt_rest ctx)
    ∧ (ctx.shell = Shell.fish → ∀ e, ctx.formatParse = Except.error e →
        (get_prompt ctx).1 = "\x1b[J" ++ ">")
    ∧ (ctx.shell ≠ Shell.fish → (get_prompt ctx).1 = prompt_rest ctx) := by
  have hsplit : (get_prompt ctx).1
      = (if ctx.shell == Shell.fish then "\x1b[J" else "") ++ prompt_rest ctx := by
    unfold get_prompt prompt_rest
    cases hf : ctx.formatParse with
    | error e => rfl
    | ok formatter => rfl
  refine ⟨hsplit, ?_, ?_⟩
  · intro hfish e herr
    unfold get_prompt
    rw [herr, hfish]
    rfl
  · intro hnot
    rw [hsplit]
    have hbeq : (ctx.shell == Shell.fish) = false := by
      cases hs : ctx.shell <;> simp_all
    rw [hbeq]
    simp

/-- `ctxBase` with the fish shell. -/
def ctxFish : Context :=
  { ctxBase with shell := Shell.fish }

/-- A fish-shell context whose format string fails to parse. -/
def ctxFishErr : Context :=
  { ctxBase with shell := Shell.fish, formatParse := Except.error () }

theorem claim_c10_witness :
    (get_prompt ctxFish).1 = "\x1b[J" ++ prompt_rest ctxFish
    ∧ (get_prompt ctxFishErr).1 = "\x1b[J" ++ ">"
    ∧ (get_prompt ctxBase).1 = prompt_rest ctxBase := by
  refine ⟨?_, ?_, ?_⟩
  · exact (claim_c10_fish_clear_sequence ctxFish).1
  · exact (claim_c10_fish_clear_sequence ctxFishErr).2.1 rfl () rfl
  · exact (claim_c10_fish_clear_sequence ctxBase).2.2 (by decide)

/-! ### C6: the parse-failure fallback output -/

/-- C6 counterexample: in a fish-shell context with a failing template parse,
the returned string is not the single literal `>` — the clear-screen
workaround precedes it. -/
theorem claim_c6_counterexample :
    ctxFishErr.formatParse = Except.error ()
    ∧ (get_prompt ctxFishErr).1 ≠ ">"
    ∧ (get_prompt ctxFishErr).1 = "\x1b[J" ++ ">" := by
  refine ⟨rfl, ?_, rfl⟩
  decide

/-- C6 (amended): for every template whose parse fails, prompt generation
does not abort: it logs the parse error and returns the shell preamble (the
clear-screen sequence when the shell is Fish, empty otherwise) followed by
the single literal character `>`. -/
theorem claim_c6_parse_failure_fallback (ctx : Context) (e : Unit)
    (h : ctx.formatParse = Except.error e) :
    get_prompt ctx
      = ((if ctx.shell == Shell.fish then "\x1b[J" else "") ++ ">",
        [LogEvent.errorParsingFormat]) := by
  unfold get_prompt
  rw [h]

theorem claim_c6_witness :
    get_prompt ctxFishErr = ("\x1b[J" ++ ">", [LogEvent.errorParsingFormat]) := by
  have h := claim_c6_parse_failure_fallback ctxFishErr () rfl
  simpa using h

/-! ### C8: rendering twice yields identical output -/

theorem afterRender_shell (ctx : Context) :
    (afterRender ctx).shell = ctx.shell := by
  unfold afterRender
  cases ctx.scanCache <;> rfl

theorem afterRender_formatParse (ctx : Context) :
    (afterRender ctx).formatParse = ctx.formatParse := by
  unfold afterRender
  cases ctx.scanCache <;> rfl

theorem afterRender_customModules (ctx : Context) :
    (afterRender ctx).customModules = ctx.customModules := by
  unfold afterRender
  cases ctx.scanCache <;> rfl

theorem afterRender_moduleDisabled (ctx : Context) :
    (afterRender ctx).moduleDisabled = ctx.moduleDisabled := by
  unfold afterRender
  cases ctx.scanCache <;> rfl

theorem afterRender_builtinModule (ctx : Context) :
    (afterRender ctx).builtinModule = ctx.builtinModule := by
  unfold afterRender
  cases ctx.scanCache <;> rfl

theorem afterRender_world (ctx : Context) :
    (afterRender ctx).world = ctx.world := by
  unfold afterRender
  cases ctx.scanCache <;> rfl

theorem afterRender_messageSegments (ctx : Context) :
    (afterRender ctx).messageSegments = ctx.messageSegments := by
  unfold afterRender
  cases ctx.scanCache <;> rfl

theorem afterRender_ansiRender (ctx : Context) :
    (afterRender ctx).ansiRender = ctx.ansiRender := by
  unfold afterRender
  cases ctx.scanCache <;> rfl

/-- Populating the one-time scan cache does not change what the scan sees. -/
theorem dirEntries_afterRender (ctx : Context) :
    Context.dirEntries (afterRender ctx) = Context.dirEntries ctx := by
  cases h : ctx.scanCache with
  | some es => simp [afterRender, Context.dirEntries, h]
  | none =>
    cases hr : ctx.readDir with
    | none => simp [afterRender, Context.dirEntries, h, hr]
    | some es => simp [afterRender, Context.dirEntries, h, hr]

theorem try_begin_scan_afterRender (ctx : Context) :
    Context.try_begin_scan (afterRender ctx) = Context.try_begin_scan ctx := by
  unfold Context.try_begin_scan
  rw [dirEntries_afterRender]

theorem customMatches_afterRender (config : CustomConfig) (ctx : Context)
    (sd : ScanDir) :
    customMatches config (afterRender ctx) sd = customMatches config ctx sd := by
  unfold customMatches
  rw [afterRender_world]

theorem assembleCustomModule_afterRender (name : String)
    (config : CustomConfig) (ctx : Context) :
    assembleCustomModule name config (afterRender ctx)
      = assembleCustomModule name config ctx := by
  unfold assembleCustomModule
  rw [afterRender_world]

theorem customModuleBody_afterRender (name : String) (tomlConfig : Toml)
    (ctx : Context) :
    customModuleBody name tomlConfig (afterRender ctx)
      = customModuleBody name tomlConfig ctx := by
  unfold customModuleBody
  rw [try_begin_scan_afterRender]
  simp only [customMatches_afterRender, assembleCustomModule_afterRender]

theorem getCustomModuleConfig_afterRender (ctx : Context) (name : String) :
    getCustomModuleConfig (afterRender ctx) name
      = getCustomModuleConfig ctx name := by
  unfold getCustomModuleConfig getCustomModules
  rw [afterRender_customModules]

theorem customModuleE_afterRender (name : String) (ctx : Context) :
    customModuleE name (afterRender ctx) = customModuleE name ctx := by
  unfold customModuleE
  rw [getCustomModuleConfig_afterRender]
  simp only [customModuleBody_afterRender]

theorem collectCustom_afterRender (ctx : Context) (lst : List String) :
    ∀ entries, collectCustom (afterRender ctx) lst entries
      = collectCustom ctx lst entries := by
  intro entries
  induction entries with
  | nil => rfl
  | cons p rest ih =>
    unfold collectCustom
    rw [customModuleE_afterRender, ih]

theorem isCustomModuleDisabled_afterRender (ctx : Context) (name : String) :
    isCustomModuleDisabledInConfig (afterRender ctx) name
      = isCustomModuleDisabledInConfig ctx name := by
  unfold isCustomModuleDisabledInConfig
  rw [getCustomModuleConfig_afterRender]

theorem handle_moduleE_afterRender (v : String) (ctx : Context)
    (lst : List String) :
    handle_moduleE v (afterRender ctx) lst = handle_moduleE v ctx lst := by
  unfold handle_moduleE getCustomModules
  rw [afterRender_moduleDisabled, afterRender_builtinModule,
    afterRender_customModules, isCustomModuleDisabled_afterRender,
    customModuleE_afterRender]
  simp only [collectCustom_afterRender]

theorem handle_module_run_afterRender (v : String) (ctx : Context)
    (lst : List String) :
    handle_module_run v (afterRender ctx) lst = handle_module_run v ctx lst := by
  unfold handle_module_run
  rw [handle_moduleE_afterRender]

theorem mapVariableToSegments_afterRender (ctx : Context)
    (modules : List String) (v : String) :
    mapVariableToSegments (afterRender ctx) modules v
      = mapVariableToSegments ctx modules v := by
  unfold mapVariableToSegments
  rw [afterRender_moduleDisabled]
  simp only [handle_module_run_afterRender]

/-- C8: rendering the same template against an unchanged Context twice
yields identical output: the embedded pipeline is a pure function of the
Context, and the only state the first render mutates — the one-time scan
cache populated by `afterRender` — does not change what a second render
produces. -/
theorem claim_c8_render_idempotent (ctx : Context) :
    get_prompt (afterRender ctx) = get_prompt ctx := by
  unfold get_prompt
  rw [afterRender_shell, afterRender_formatParse, afterRender_messageSegments,
    afterRender_ansiRender]
  simp only [mapVariableToSegments_afterRender]

end Starship
